import Mathlib

/-!
Verification of the tssc pipeline library against its specification.

The configuration data model follows the Python sources: step configuration
and step results are flat string-keyed mappings whose values may be strings,
integers, booleans, or (nested, but never recursively merged) dictionaries.
We embed such mappings as association lists over `String`, with lookup
returning the first binding, and the Python `dict.update` / `{**a, **b}`
merge as `updateMap`.
-/

/-- A Python-style value as it occurs in tssc configuration and results
mappings: string, integer, boolean, or a nested dictionary. -/
inductive Value where
  | str : String → Value
  | int : Int → Value
  | bool : Bool → Value
  | dict : List (String × Value) → Value

/-- Python truthiness of a `Value`: empty strings, zero, `False` and empty
dictionaries are falsy, everything else is truthy. -/
def Value.truthy : Value → Bool
  | .str s => !(s == "")
  | .int n => !(n == 0)
  | .bool b => b
  | .dict l => !l.isEmpty

/-- A flat string-keyed mapping (Python `dict`), embedded as an
association list. -/
abbrev SMap := List (String × Value)

/-- Lookup of a key in a mapping (Python `d.get(k)` / `k in d`). -/
def getVal : SMap → String → Option Value
  | [], _ => none
  | (k', v) :: rest, k => if k' == k then some v else getVal rest k

/-- First-of-two choice on optional values, used to state last-writer-wins
lookup facts. -/
def orElseO (a b : Option Value) : Option Value :=
  match a with
  | some v => some v
  | none => b

/-- Python `{**a, **b}` / `a.update(b)`: a shallow last-writer-wins merge in
which every key of `b` overwrites the key of the same name in `a` and keys
absent from `b` keep their `a` value; values are replaced wholesale, never
recursively merged. -/
def updateMap (a b : SMap) : SMap :=
  a.filter (fun p => (getVal b p.1).isNone) ++ b

theorem getVal_append (a b : SMap) (k : String) :
    getVal (a ++ b) k = orElseO (getVal a k) (getVal b k) := by
  induction a with
  | nil => simp [getVal, orElseO]
  | cons p rest ih =>
      obtain ⟨k', v⟩ := p
      cases h : (k' == k) with
      | true => simp [getVal, h, orElseO]
      | false => simp [getVal, h, ih, List.append_eq]

theorem getVal_filter_keyNotIn (a b : SMap) (k : String)
    (hb : getVal b k = none) :
    getVal (a.filter (fun p => (getVal b p.1).isNone)) k = getVal a k := by
  induction a with
  | nil => rfl
  | cons p rest ih =>
      obtain ⟨k', v⟩ := p
      cases h : (k' == k) with
      | true =>
          have hk : k' = k := by simpa using h
          subst hk
          simp [List.filter_cons, hb, getVal]
      | false =>
          cases hkeep : (getVal b k').isNone with
          | true => simp [List.filter_cons, hkeep, getVal, h, ih]
          | false => simp [List.filter_cons, hkeep, getVal, h, ih]

theorem getVal_filter_keyIn (a b : SMap) (k : String)
    (hb : getVal b k ≠ none) :
    getVal (a.filter (fun p => (getVal b p.1).isNone)) k = none := by
  induction a with
  | nil => rfl
  | cons p rest ih =>
      obtain ⟨k', v⟩ := p
      cases h : (k' == k) with
      | true =>
          have hk : k' = k := by simpa using h
          have hfalse : (getVal b k').isNone = false := by
            rw [hk]
            cases hg : getVal b k with
            | none => exact absurd hg hb
            | some v' => simp [hg]
          simp [List.filter_cons, hfalse, ih]
      | false =>
          cases hkeep : (getVal b k').isNone with
          | true => simp [List.filter_cons, hkeep, getVal, h, ih]
          | false => simp [List.filter_cons, hkeep, ih]

/-- The fundamental lookup law of the shallow merge: the updating mapping
wins on its own keys and leaves all other keys untouched. -/
theorem getVal_updateMap (a b : SMap) (k : String) :
    getVal (updateMap a b) k = orElseO (getVal b k) (getVal a k) := by
  unfold updateMap
  rw [getVal_append]
  cases hb : getVal b k with
  | none =>
      rw [getVal_filter_keyNotIn a b k hb]
      cases getVal a k <;> simp [orElseO]
  | some v =>
      rw [getVal_filter_keyIn a b k (by simp [hb])]
      simp [orElseO]

theorem getVal_updateMap_nil (a : SMap) (k : String) :
    getVal (updateMap a []) k = getVal a k := by
  rw [getVal_updateMap]
  rfl

/-- Modelled from the spec: the ConfigResolver. The module implementing it
(`tssc/step_implementer.py`, imported by `tssc/__init__.py`) is not under
`src/`; per the spec it merges, from lowest to highest precedence,
(1) implementer-supplied defaults, (2) global defaults, (3) global
environment defaults for the selected environment, (4) the step's static
config, (5) the step's environment config for the selected environment,
(6) runtime overrides, each tier shallowly overwriting the previous. -/
def resolveConfig (implDefaults globalDefaults globalEnvDefaults
    staticConfig stepEnvConfig overrides : SMap) : SMap :=
  updateMap (updateMap (updateMap (updateMap (updateMap
    implDefaults globalDefaults) globalEnvDefaults) staticConfig)
    stepEnvConfig) overrides

/-- Claim C1: for every set of six tier mappings and every key, the resolved
effective step config maps the key to its value in the highest-precedence
tier in which it is present (runtime overrides before step environment
config before step static config before global environment defaults before
global defaults before implementer defaults); a key absent from a tier
leaves the lower-tier value untouched, and values — including nested
dictionaries — are taken wholesale from the winning tier, with no
deep/recursive merge. -/
theorem resolveConfig_last_writer_wins (d g ge s se o : SMap) (k : String) :
    getVal (resolveConfig d g ge s se o) k =
      orElseO (getVal o k) (orElseO (getVal se k) (orElseO (getVal s k)
        (orElseO (getVal ge k) (orElseO (getVal g k) (getVal d k))))) := by
  unfold resolveConfig
  rw [getVal_updateMap, getVal_updateMap, getVal_updateMap, getVal_updateMap,
    getVal_updateMap]

/-!
The cumulative results document (`tssc-results`): a mapping from step name
to the flat result mapping recorded for that step.
-/

/-- The results document: step name → recorded result mapping. -/
abbrev Doc := List (String × SMap)

/-- Lookup of a step's recorded results (Python `results.get(step)`);
absence is a first-class outcome, never an error. -/
def getDoc : Doc → String → Option SMap
  | [], _ => none
  | (s', m) :: rest, s => if s' == s then some m else getDoc rest s

/-- Replace the entry for a step, or append it when the step has no entry
yet. -/
def setDoc : Doc → String → SMap → Doc
  | [], s, m => [(s, m)]
  | (s', m') :: rest, s, m =>
      if s' == s then (s', m) :: rest else (s', m') :: setDoc rest s m

/-- Modelled from the spec: `ResultsStore.merge_step_result` (the
implementing module is not under `src/`). Per the spec it combines the
given result into the existing entry for the step using the same
last-writer-wins flat merge as the config resolver; a step with no prior
entry starts from the empty mapping. -/
def mergeStepResult (doc : Doc) (step : String) (result : SMap) : Doc :=
  setDoc doc step (updateMap ((getDoc doc step).getD []) result)

theorem getDoc_setDoc_self (doc : Doc) (s : String) (m : SMap) :
    getDoc (setDoc doc s m) s = some m := by
  induction doc with
  | nil => simp [setDoc, getDoc]
  | cons p rest ih =>
      obtain ⟨s', m'⟩ := p
      cases h : (s' == s) with
      | true => simp [setDoc, getDoc, h]
      | false => simp [setDoc, getDoc, h, ih]

theorem getDoc_mergeStepResult_self (doc : Doc) (s : String) (r : SMap) :
    getDoc (mergeStepResult doc s r) s =
      some (updateMap ((getDoc doc s).getD []) r) := by
  unfold mergeStepResult
  exact getDoc_setDoc_self doc s _

/-- Claim C2: merging `r1` and then `r2` into a step's results-document entry
gives, at every key, `r2`'s value when `r2` has the key, otherwise the
value the entry had after merging `r1` (so only overlapping keys are
overwritten and every other previously recorded key keeps its prior
value); when the step had no prior entry the final entry is exactly the
last-writer-wins union of `r1` and `r2`. -/
theorem mergeStepResult_twice (doc : Doc) (s : String) (r1 r2 : SMap)
    (k : String) :
    getVal ((getDoc (mergeStepResult (mergeStepResult doc s r1) s r2)
        s).getD []) k =
      orElseO (getVal r2 k)
        (getVal ((getDoc (mergeStepResult doc s r1) s).getD []) k)
    ∧ (getDoc doc s = none →
        getVal ((getDoc (mergeStepResult (mergeStepResult doc s r1) s r2)
            s).getD []) k = orElseO (getVal r2 k) (getVal r1 k)) := by
  constructor
  · rw [getDoc_mergeStepResult_self]
    simp only [Option.getD_some]
    rw [getVal_updateMap]
  · intro h0
    rw [getDoc_mergeStepResult_self, getDoc_mergeStepResult_self, h0]
    simp only [Option.getD_some, Option.getD_none]
    rw [getVal_updateMap, getVal_updateMap]
    cases getVal r2 k <;> cases getVal r1 k <;> simp [orElseO, getVal]

/-- Witness for C2 at a concrete document, step and result mappings.

The witness evaluates the merge on explicit mappings with an overlapping
key. -/
theorem mergeStepResult_twice_witness :
    getDoc ([] : Doc) "generate-metadata" = none ∧
      getVal ((getDoc (mergeStepResult (mergeStepResult [] "generate-metadata"
          [("status", .str "ok")]) "generate-metadata"
          [("status", .str "done"), ("extra", .str "x")])
          "generate-metadata").getD []) "status" =
        orElseO (getVal [("status", .str "done"), ("extra", .str "x")]
          "status") (getVal [("status", .str "ok")] "status") :=
  ⟨rfl, (mergeStepResult_twice [] "generate-metadata" [("status", .str "ok")]
    [("status", .str "done"), ("extra", .str "x")] "status").2 rfl⟩

/-!
The step-implementer execution model. Implementer code raises Python
exceptions; we embed the ones the sources raise. External command
invocations (`sh.argocd`, `sh.git`, `sh.cp`, template rendering) are
recorded as actions in an execution trace.
-/

/-- The Python exceptions raised by the embedded implementer code. -/
inductive RunErr where
  | keyError : String → RunErr
  | valueError : String → RunErr
  | assertionError : String → RunErr
  | configError : List String → RunErr
  | runtimeError : String → RunErr

/-- One external action performed by the ArgoCD deploy implementer. -/
inductive Act where
  | argocdLogin (api username password : String)
  | argocdAppGet (appName : String)
  | argocdAppCreate (appName repo revision path destServer destNamespace :
      String)
  | gitClone (repo : String)
  | gitCheckout (branch : String)
  | renderValuesYaml (directory template : String)
  | copyValuesYaml
  | gitConfig (key value : String)
  | gitCommit (message : String)
  | gitTagCmd (tag : String)
  | gitPushTags (url : Option String)
  | gitPush (url : Option String)
  | argocdSync (timeout appName : String)

/-- Execution of implementer code: threads the trace of external actions
already performed and either returns a value or stops at the first raised
exception, keeping the actions performed up to that point. -/
def RunM (α : Type) : Type := List Act → List Act × Except RunErr α

def RunM.pure {α : Type} (a : α) : RunM α := fun t => (t, .ok a)

def RunM.bind {α β : Type} (x : RunM α) (f : α → RunM β) : RunM β :=
  fun t =>
    match x t with
    | (t', .ok a) => f a t'
    | (t', .error e) => (t', .error e)

instance : Monad RunM where
  pure := RunM.pure
  bind := RunM.bind

/-- Record one external action. -/
def emit (a : Act) : RunM Unit := fun t => (t ++ [a], .ok ())

/-- Lift a pure fallible computation into the execution model. -/
def liftE {α : Type} (x : Except RunErr α) : RunM α := fun t => (t, x)

/-- Run implementer code from the empty trace. -/
def RunM.exec {α : Type} (x : RunM α) : List Act × Except RunErr α :=
  x []

/-- Python `d[k]`: indexing that raises `KeyError` on a missing key. -/
def item (cfg : SMap) (k : String) : RunM Value :=
  liftE (match getVal cfg k with
         | some v => Except.ok v
         | none => Except.error (RunErr.keyError k))

theorem run_bind {α β : Type} (x : RunM α) (f : α → RunM β)
    (t : List Act) :
    (x >>= f) t =
      match x t with
      | (t', .ok a) => f a t'
      | (t', .error e) => (t', .error e) := rfl

theorem run_pure {α : Type} (a : α) (t : List Act) :
    (Pure.pure a : RunM α) t = (t, .ok a) := rfl

theorem run_emit (a : Act) (t : List Act) :
    emit a t = (t ++ [a], .ok ()) := rfl

theorem run_liftE {α : Type} (x : Except RunErr α) (t : List Act) :
    liftE x t = (t, x) := rfl

theorem run_item (cfg : SMap) (k : String) (t : List Act) :
    item cfg k t =
      (t, match getVal cfg k with
          | some v => Except.ok v
          | none => Except.error (RunErr.keyError k)) := rfl

/-- Python `str()` on the value kinds the sources interpolate into command
lines and URLs; the `dict` case abstracts Python's `repr`-style rendering,
which no verified claim exercises. -/
def Value.toStr : Value → String
  | .str s => s
  | .int n => toString n
  | .bool b => if b then "True" else "False"
  | .dict _ => "<dict>"

/-- Modelled from the spec: `DefaultSteps.DEPLOY` (tssc/step_implementer.py
is not under src/); the spec fixes the recognized step names. -/
def DefaultSteps.DEPLOY : String := "deploy"

/-- Modelled from the spec: `DefaultSteps.TAG_SOURCE`. -/
def DefaultSteps.TAG_SOURCE : String := "tag-source"

/-- Modelled from the spec: `DefaultSteps.PUSH_CONTAINER_IMAGE`. -/
def DefaultSteps.PUSH_CONTAINER_IMAGE : String := "push-container-image"

/-- Modelled from the spec: `DefaultSteps.GENERATE_METADATA`. -/
def DefaultSteps.GENERATE_METADATA : String := "generate-metadata"

/-- Modelled from the spec:
`DefaultSteps.CONTAINER_IMAGE_STATIC_COMPLIANCE_SCAN`. -/
def DefaultSteps.CONTAINER_IMAGE_STATIC_COMPLIANCE_SCAN : String :=
  "container-image-static-compliance-scan"

/-- Modelled from the spec: `StepImplementer.get_step_results` /
`ResultsStore.get` (not under src/): read-only lookup of a prior step's
recorded results, returning absence — never an error — for a step that was
never written. -/
def getStepResults (results : Doc) (step : String) : Option SMap :=
  getDoc results step

/-- Python `d.get(k)` used in a boolean test whose truthy value is then
reused: yields the value only when the key is present and its value is
truthy. -/
def getTruthy (m : SMap) (k : String) : Option Value :=
  match getVal m k with
  | some v => if v.truthy then some v else none
  | none => none

/-- Modelled from the spec: the generic required-key check of the
StepImplementer base class (not under src/): after the merge, every
declared required key must be present with a non-empty (truthy) value;
the keys failing the check are reported. -/
def missingRequiredKeys (required : List String) (cfg : SMap) :
    List String :=
  required.filter (fun k =>
    match getVal cfg k with
    | none => true
    | some v => !v.truthy)

/-- Modelled from the spec: the base-class validation fails with a
configuration error naming the missing keys when any required key is
absent or empty. -/
def validateRequiredConfigKeys (required : List String) (cfg : SMap) :
    Except RunErr Unit :=
  match missingRequiredKeys required cfg with
  | [] => Except.ok ()
  | ms => Except.error (RunErr.configError ms)

/-!
The ArgoCD deploy step implementer, translated from
`src/tssc/step_implementers/deploy/argocd.py`. The two pieces of external
state it consults are whether `argocd app get` finds the app and the
repository url reported by `git config --get remote.origin.url`.
-/

/-- External state consulted by the ArgoCD implementer. -/
structure ArgoEnv where
  appExists : Bool
  remoteUrl : String

/-- Python `str.startswith`, on the code-point sequence. -/
def pyStartsWith (s pre : String) : Bool :=
  pre.data.isPrefixOf s.data

/-- Python string slicing `s[n:]`, on the code-point sequence. -/
def pyDrop (s : String) (n : Nat) : String :=
  String.mk (s.data.drop n)

/-- The `DEFAULT_CONFIG` of the ArgoCD deploy implementer. -/
def ArgoCD.DEFAULT_CONFIG : SMap :=
  [("values-yaml-directory", .str "./cicd/Deployment"),
   ("values-yaml-template", .str "values.yaml.j2"),
   ("helm-config-repo-branch", .str "master"),
   ("argocd-sync-timeout-seconds", .int 60),
   ("kube-api-uri", .str "https://kubernetes.default.svc"),
   ("argocd-helm-chart-path", .str "./"),
   ("git-email", .str "napsspo+tssc@redhat.com"),
   ("git-friendly-name", .str "TSSC")]

/-- The `REQUIRED_CONFIG_KEYS` of the ArgoCD deploy implementer. -/
def ArgoCD.REQUIRED_CONFIG_KEYS : List String :=
  ["argocd-username", "argocd-password", "argocd-api",
   "deployment-namespace", "helm-config-repo"]

/-- The `GIT_AUTHENTICATION_CONFIG` constant: in the source a dict with keys
`git-username` and `git-password` (and `None` values); the code only ever
iterates over its keys, so it is embedded as the key list. -/
def ArgoCD.GIT_AUTHENTICATION_CONFIG : List String :=
  ["git-username", "git-password"]

/-- Translation of `ArgoCD._validate_runtime_step_config`: the base-class required-key
check followed by the all-or-none membership assertion over the git
authentication keys. -/
def ArgoCD.validateRuntimeStepConfig (cfg : SMap) : Except RunErr Unit :=
  match validateRequiredConfigKeys ArgoCD.REQUIRED_CONFIG_KEYS cfg with
  | .error e => .error e
  | .ok () =>
      if (ArgoCD.GIT_AUTHENTICATION_CONFIG.all
            (fun k => (getVal cfg k).isSome)) ||
          !(ArgoCD.GIT_AUTHENTICATION_CONFIG.any
            (fun k => (getVal cfg k).isSome)) then
        .ok ()
      else
        .error (.assertionError
          "Either username or password is not set. Neither or both must be set.")

/-- Translation of `ArgoCD._git_url`: the `url` config value when present and truthy,
otherwise the remote url reported by git. -/
def ArgoCD.gitUrl (cfg : SMap) (env : ArgoEnv) : String :=
  match getTruthy cfg "url" with
  | some v => v.toStr
  | none => env.remoteUrl

/-- Translation of `ArgoCD._get_tag`: the truthy `tag` recorded by the tag-source step,
defaulting to `latest` when that step has no truthy recorded result
mapping or no truthy `tag` key; total — absence of the prior step never
fails. -/
def ArgoCD.getTag (results : Doc) : Value :=
  match getStepResults results DefaultSteps.TAG_SOURCE with
  | some m =>
      if !m.isEmpty then
        match getTruthy m "tag" with
        | some v => v
        | none => .str "latest"
      else .str "latest"
  | none => .str "latest"

/-- Translation of `ArgoCD._get_image_url`: the truthy `image-url` config value, else the
truthy `image-url` recorded by the push-container-image step, else a
`ValueError`. -/
def ArgoCD.getImageUrl (cfg : SMap) (results : Doc) : Except RunErr Value :=
  match getTruthy cfg "image-url" with
  | some v => .ok v
  | none =>
      match getStepResults results DefaultSteps.PUSH_CONTAINER_IMAGE with
      | some m =>
          if !m.isEmpty then
            match getTruthy m "image-url" with
            | some v => .ok v
            | none => .error (.valueError "No image url was specified")
          else .error (.valueError "No image url was specified")
      | none => .error (.valueError "No image url was specified")

/-- Translation of `ArgoCD._get_image_version`: the truthy `image-version` config value,
else the truthy `image-version` recorded by the push-container-image step,
else `latest`; total — absence of the prior step never fails. -/
def ArgoCD.getImageVersion (cfg : SMap) (results : Doc) : Value :=
  match getTruthy cfg "image-version" with
  | some v => v
  | none =>
      match getStepResults results DefaultSteps.PUSH_CONTAINER_IMAGE with
      | some m =>
          if !m.isEmpty then
            match getTruthy m "image-version" with
            | some v => v
            | none => .str "latest"
          else .str "latest"
      | none => .str "latest"

/-- Translation of `ArgoCD._update_values_yaml`: renders the jinja template with the
image version and url (the url lookup may raise) and copies the rendered
file into the cloned repo. -/
def ArgoCD.updateValuesYaml (cfg : SMap) (results : Doc) : RunM Unit := do
  let dir ← item cfg "values-yaml-directory"
  let _version := ArgoCD.getImageVersion cfg results
  let _url ← liftE (ArgoCD.getImageUrl cfg results)
  let tmpl ← item cfg "values-yaml-template"
  emit (.renderValuesYaml dir.toStr tmpl.toStr)
  emit .copyValuesYaml

/-- Translation of `ArgoCD._process_git_push`: resolves credentials (membership first,
then truthiness of both values), re-tags, and pushes to a url that embeds
the credentials, replacing an `http://` or `https://` prefix of the git
url by `http://username:password@`. -/
def ArgoCD.processGitPush (cfg : SMap) (results : Doc) (env : ArgoEnv) :
    RunM Unit := do
  let creds ←
    (if ArgoCD.GIT_AUTHENTICATION_CONFIG.any
          (fun k => (getVal cfg k).isSome) then
      match getTruthy cfg "git-username", getTruthy cfg "git-password" with
      | some u, some p => Pure.pure (some (u, p))
      | _, _ => liftE (Except.error (RunErr.valueError
          "Both username and password must have non-empty value in the runtime step configuration"))
     else
      Pure.pure none)
  emit (.gitTagCmd (ArgoCD.getTag results).toStr)
  let gitUrl := ArgoCD.gitUrl cfg env
  if pyStartsWith gitUrl "http://" then
    match creds with
    | some (u, p) => do
        let pushUrl := "http://" ++ u.toStr ++ ":" ++ p.toStr ++ "@" ++
          (pyDrop gitUrl 7)
        emit (.gitPushTags (some pushUrl))
        emit (.gitPush (some pushUrl))
    | none => liftE (Except.error (RunErr.valueError
        "For a http:// git url, you need to also provide username/password pair"))
  else if pyStartsWith gitUrl "https://" then
    match creds with
    | some (u, p) => do
        let pushUrl := "http://" ++ u.toStr ++ ":" ++ p.toStr ++ "@" ++
          (pyDrop gitUrl 8)
        emit (.gitPushTags (some pushUrl))
        emit (.gitPush (some pushUrl))
    | none => liftE (Except.error (RunErr.valueError
        "For a https:// git url, you need to also provide username/password pair"))
  else do
    emit (.gitPushTags none)
    emit (.gitPush none)

/-- Translation of `ArgoCD._run_step`: validation, argocd login, app lookup/creation,
clone/checkout, values rendering, commit and tag, push, sync, and the
result mapping. -/
def ArgoCD.runStep (cfg : SMap) (results : Doc) (env : ArgoEnv) :
    List Act × Except RunErr SMap :=
  RunM.exec (do
    liftE (ArgoCD.validateRuntimeStepConfig cfg)
    let api ← item cfg "argocd-api"
    let user ← item cfg "argocd-username"
    let pass ← item cfg "argocd-password"
    emit (.argocdLogin api.toStr user.toStr pass.toStr)
    let org ← item cfg "organization"
    let app ← item cfg "application-name"
    let svc ← item cfg "service-name"
    let appName := org.toStr ++ "-" ++ app.toStr ++ "-" ++ svc.toStr
    emit (.argocdAppGet appName)
    (if env.appExists then
      Pure.pure ()
     else do
      let repo ← item cfg "helm-config-repo"
      let branch ← item cfg "helm-config-repo-branch"
      let path ← item cfg "argocd-helm-chart-path"
      let kube ← item cfg "kube-api-uri"
      let ns ← item cfg "deployment-namespace"
      emit (.argocdAppCreate appName repo.toStr branch.toStr path.toStr
        kube.toStr ns.toStr))
    let gitUrlMsg := ArgoCD.gitUrl cfg env
    let repo ← item cfg "helm-config-repo"
    emit (.gitClone repo.toStr)
    let branch ← item cfg "helm-config-repo-branch"
    emit (.gitCheckout branch.toStr)
    ArgoCD.updateValuesYaml cfg results
    let tag := ArgoCD.getTag results
    let email ← item cfg "git-email"
    emit (.gitConfig "user.email" email.toStr)
    let name ← item cfg "git-friendly-name"
    emit (.gitConfig "user.name" name.toStr)
    emit (.gitCommit ("Configuration Change from TSSC Pipeline. Repository: "
      ++ gitUrlMsg ++ " Tag: " ++ tag.toStr))
    emit (.gitTagCmd tag.toStr)
    ArgoCD.processGitPush cfg results env
    let timeout ← item cfg "argocd-sync-timeout-seconds"
    emit (.argocdSync timeout.toStr appName)
    Pure.pure [("argocd-app-name", Value.str appName),
               ("config-repo-git-tag", tag)])

/-- Claim C3: when any of the ArgoCD deploy implementer's declared required keys
(`argocd-username`, `argocd-password`, `argocd-api`,
`deployment-namespace`, `helm-config-repo`) is absent or has an empty
value, the step fails with a configuration error naming exactly the
missing keys, and the execution trace is empty: no external action —
argocd login, app lookup or creation, or any git operation — is
performed. -/
theorem ArgoCD_missing_required_key_fails_before_actions
    (cfg : SMap) (results : Doc) (env : ArgoEnv)
    (h : missingRequiredKeys ArgoCD.REQUIRED_CONFIG_KEYS cfg ≠ []) :
    ArgoCD.runStep cfg results env =
      ([], .error (.configError
        (missingRequiredKeys ArgoCD.REQUIRED_CONFIG_KEYS cfg))) := by
  have hv : ArgoCD.validateRuntimeStepConfig cfg =
      .error (.configError
        (missingRequiredKeys ArgoCD.REQUIRED_CONFIG_KEYS cfg)) := by
    unfold ArgoCD.validateRuntimeStepConfig validateRequiredConfigKeys
    cases hm : missingRequiredKeys ArgoCD.REQUIRED_CONFIG_KEYS cfg with
    | nil => exact absurd hm h
    | cons a l => rfl
  unfold ArgoCD.runStep
  rw [hv]
  rfl

/-- Witness for C3: a config supplying four of the five required keys and
an empty `argocd-password` fails with a configuration error naming the
empty and the absent key, performing no external action. -/
theorem ArgoCD_missing_required_key_fails_before_actions_witness :
    missingRequiredKeys ArgoCD.REQUIRED_CONFIG_KEYS
        [("argocd-username", .str "admin"), ("argocd-password", .str ""),
         ("argocd-api", .str "https://argo.example.com"),
         ("deployment-namespace", .str "dev")] ≠ [] ∧
      ArgoCD.runStep
        [("argocd-username", .str "admin"), ("argocd-password", .str ""),
         ("argocd-api", .str "https://argo.example.com"),
         ("deployment-namespace", .str "dev")] [] ⟨true, "r"⟩ =
      ([], .error (.configError ["argocd-password", "helm-config-repo"])) :=
  ⟨by decide,
   ArgoCD_missing_required_key_fails_before_actions
     [("argocd-username", .str "admin"), ("argocd-password", .str ""),
      ("argocd-api", .str "https://argo.example.com"),
      ("deployment-namespace", .str "dev")] [] ⟨true, "r"⟩ (by decide)⟩

/-- Claim C4: with all required keys present (and non-empty), the ArgoCD
validation hook succeeds precisely when the keys `git-username` and
`git-password` are both present or both absent, and fails with an
`AssertionError` reading "Either username or password is not set. Neither
or both must be set." precisely when exactly one of the two keys is
present — the check tests key membership only. -/
theorem ArgoCD_validate_git_credentials (cfg : SMap)
    (hreq : missingRequiredKeys ArgoCD.REQUIRED_CONFIG_KEYS cfg = []) :
    ((getVal cfg "git-username").isSome = (getVal cfg "git-password").isSome →
      ArgoCD.validateRuntimeStepConfig cfg = .ok ())
    ∧ ((getVal cfg "git-username").isSome ≠ (getVal cfg "git-password").isSome →
      ArgoCD.validateRuntimeStepConfig cfg = .error (.assertionError
        "Either username or password is not set. Neither or both must be set.")) := by
  have h1 : validateRequiredConfigKeys ArgoCD.REQUIRED_CONFIG_KEYS cfg =
      .ok () := by
    unfold validateRequiredConfigKeys
    rw [hreq]
  unfold ArgoCD.validateRuntimeStepConfig
  rw [h1]
  cases hu : (getVal cfg "git-username").isSome with
  | true =>
      cases hp : (getVal cfg "git-password").isSome with
      | true =>
          constructor
          · intro _
            simp [ArgoCD.GIT_AUTHENTICATION_CONFIG, hu, hp]
          · intro hne
            simp [hu, hp] at hne
      | false =>
          constructor
          · intro heq
            simp [hu, hp] at heq
          · intro _
            simp [ArgoCD.GIT_AUTHENTICATION_CONFIG, hu, hp]
  | false =>
      cases hp : (getVal cfg "git-password").isSome with
      | true =>
          constructor
          · intro heq
            simp [hu, hp] at heq
          · intro _
            simp [ArgoCD.GIT_AUTHENTICATION_CONFIG, hu, hp]
      | false =>
          constructor
          · intro _
            simp [ArgoCD.GIT_AUTHENTICATION_CONFIG, hu, hp]
          · intro hne
            simp [hu, hp] at hne

/-- Witness for C4: a config with all required keys and only
`git-password` present fails the hook with the assertion message. -/
theorem ArgoCD_validate_git_credentials_witness :
    missingRequiredKeys ArgoCD.REQUIRED_CONFIG_KEYS
        [("argocd-username", .str "admin"), ("argocd-password", .str "pw"),
         ("argocd-api", .str "https://argo.example.com"),
         ("deployment-namespace", .str "dev"),
         ("helm-config-repo", .str "https://h/r.git"),
         ("git-password", .str "unit_test_password")] = [] ∧
      ArgoCD.validateRuntimeStepConfig
        [("argocd-username", .str "admin"), ("argocd-password", .str "pw"),
         ("argocd-api", .str "https://argo.example.com"),
         ("deployment-namespace", .str "dev"),
         ("helm-config-repo", .str "https://h/r.git"),
         ("git-password", .str "unit_test_password")] =
      .error (.assertionError
        "Either username or password is not set. Neither or both must be set.") :=
  ⟨by decide,
   (ArgoCD_validate_git_credentials
     [("argocd-username", .str "admin"), ("argocd-password", .str "pw"),
      ("argocd-api", .str "https://argo.example.com"),
      ("deployment-namespace", .str "dev"),
      ("helm-config-repo", .str "https://h/r.git"),
      ("git-password", .str "unit_test_password")] (by decide)).2
     (by decide)⟩

/-- Claim C5: the ArgoCD image-url lookup returns the config's `image-url` value
when present and non-empty; otherwise the non-empty `image-url` recorded
by the push-container-image step when that entry exists; and when neither
source yields a value it raises `ValueError` with message
"No image url was specified". -/
theorem ArgoCD_getImageUrl_resolution (cfg : SMap) (results : Doc) :
    (∀ v, getVal cfg "image-url" = some v → v.truthy = true →
      ArgoCD.getImageUrl cfg results = .ok v)
    ∧ (getTruthy cfg "image-url" = none →
      ∀ m v, getStepResults results DefaultSteps.PUSH_CONTAINER_IMAGE = some m →
        getVal m "image-url" = some v → v.truthy = true →
        ArgoCD.getImageUrl cfg results = .ok v)
    ∧ (getTruthy cfg "image-url" = none →
      (match getStepResults results DefaultSteps.PUSH_CONTAINER_IMAGE with
       | none => True
       | some m => getTruthy m "image-url" = none) →
      ArgoCD.getImageUrl cfg results =
        .error (.valueError "No image url was specified")) := by
  refine ⟨?_, ?_, ?_⟩
  · intro v hv ht
    have h0 : getTruthy cfg "image-url" = some v := by
      simp [getTruthy, hv, ht]
    unfold ArgoCD.getImageUrl
    rw [h0]
  · intro h0 m v hm hv ht
    unfold ArgoCD.getImageUrl
    rw [h0, hm]
    have hne : m.isEmpty = false := by
      cases m with
      | nil => simp [getVal] at hv
      | cons p rest => rfl
    have htr : getTruthy m "image-url" = some v := by
      simp [getTruthy, hv, ht]
    simp [hne, htr]
  · intro h0 hrest
    unfold ArgoCD.getImageUrl
    rw [h0]
    cases hm : getStepResults results DefaultSteps.PUSH_CONTAINER_IMAGE with
    | none => rfl
    | some m =>
        rw [hm] at hrest
        cases m with
        | nil => rfl
        | cons p rest' => simp [hrest]

/-- Witness for C5: an empty config and empty results document yield the
`ValueError`, and a config carrying a non-empty `image-url` yields it. -/
theorem ArgoCD_getImageUrl_resolution_witness :
    ArgoCD.getImageUrl [] [] =
      .error (.valueError "No image url was specified") ∧
    ArgoCD.getImageUrl [("image-url", .str "quay.io/tssc/myimage")] [] =
      .ok (.str "quay.io/tssc/myimage") :=
  ⟨(ArgoCD_getImageUrl_resolution [] []).2.2 rfl trivial,
   (ArgoCD_getImageUrl_resolution
     [("image-url", .str "quay.io/tssc/myimage")] []).1
     (.str "quay.io/tssc/myimage") rfl rfl⟩

/-- Claim C6: reading prior-step results that were never written does not fail:
the tag lookup evaluates to `latest` whenever the tag-source step has no
persisted result or its result has no non-empty `tag` key, and the
image-version lookup evaluates to `latest` whenever neither the runtime
config nor the push-container-image step results supply a non-empty
`image-version`; both lookups are total functions of the results
document. -/
theorem ArgoCD_absent_results_default_latest (cfg : SMap) (results : Doc) :
    ((match getStepResults results DefaultSteps.TAG_SOURCE with
      | none => True
      | some m => getTruthy m "tag" = none) →
      ArgoCD.getTag results = .str "latest")
    ∧ (getTruthy cfg "image-version" = none →
      (match getStepResults results DefaultSteps.PUSH_CONTAINER_IMAGE with
       | none => True
       | some m => getTruthy m "image-version" = none) →
      ArgoCD.getImageVersion cfg results = .str "latest") := by
  constructor
  · intro h
    unfold ArgoCD.getTag
    cases hm : getStepResults results DefaultSteps.TAG_SOURCE with
    | none => rfl
    | some m =>
        rw [hm] at h
        cases m with
        | nil => rfl
        | cons p rest => simp [h]
  · intro h0 h
    unfold ArgoCD.getImageVersion
    rw [h0]
    cases hm : getStepResults results DefaultSteps.PUSH_CONTAINER_IMAGE with
    | none => rfl
    | some m =>
        rw [hm] at h
        cases m with
        | nil => rfl
        | cons p rest => simp [h]

/-- Witness for C6: with an empty results document and empty config both
lookups evaluate to `latest`. -/
theorem ArgoCD_absent_results_default_latest_witness :
    ArgoCD.getTag [] = .str "latest" ∧
      ArgoCD.getImageVersion [] [] = .str "latest" :=
  ⟨(ArgoCD_absent_results_default_latest [] []).1 trivial,
   (ArgoCD_absent_results_default_latest [] []).2 rfl trivial⟩

/-!
The Maven generate-metadata implementer, translated from
`src/tssc/step_implementers/generate_metadata/maven.py`.
-/

/-- The file system consulted by the Maven implementer: whether a path
exists, and, abstractly, the text of the version element of the pom file
at a path. -/
structure FileSys where
  pathExists : String → Bool
  pomVersionText : String → String

/-- The `DEFAULT_CONFIG` of the Maven generate-metadata implementer. -/
def Maven.DEFAULT_CONFIG : SMap := [("pom-file", .str "pom.xml")]

/-- The `REQUIRED_CONFIG_KEYS` of the Maven generate-metadata implementer. -/
def Maven.REQUIRED_CONFIG_KEYS : List String := ["pom-file"]

/-- Translation of `Maven._run_step`: raises `ValueError` when the configured pom file
does not exist, otherwise records `app-version` from the pom's version
element. `get_xml_element` lives in `tssc/step_implementers/utils/xml.py`,
which is not under `src/`; it is abstracted by the `pomVersionText` oracle
of the file system. -/
def Maven.runStep (fs : FileSys) (cfg : SMap) : Except RunErr SMap :=
  match getVal cfg "pom-file" with
  | none => .error (.keyError "pom-file")
  | some v =>
      let pomFile := v.toStr
      if fs.pathExists pomFile then
        .ok [("app-version", .str (fs.pomVersionText pomFile))]
      else
        .error (.valueError ("Given pom file does not exist: " ++ pomFile))

/-- Claim C7: for every effective step config whose `pom-file` key names a path,
the Maven run hook fails with `ValueError` "Given pom file does not
exist: " followed by the path when the file does not exist, and otherwise
returns the result mapping whose single key `app-version` holds the text
of the version element of that pom file. -/
theorem Maven_runStep_pom_version (fs : FileSys) (cfg : SMap) (p : String)
    (hp : getVal cfg "pom-file" = some (.str p)) :
    (fs.pathExists p = false →
      Maven.runStep fs cfg =
        .error (.valueError ("Given pom file does not exist: " ++ p)))
    ∧ (fs.pathExists p = true →
      Maven.runStep fs cfg =
        .ok [("app-version", .str (fs.pomVersionText p))]) := by
  constructor
  · intro hex
    unfold Maven.runStep
    rw [hp]
    simp [Value.toStr, hex]
  · intro hex
    unfold Maven.runStep
    rw [hp]
    simp [Value.toStr, hex]

/-- Witness for C7: a file system on which only `pom.xml` exists with
version text `1.0-SNAPSHOT`; the run hook fails on a missing path and
returns the version for `pom.xml`. -/
theorem Maven_runStep_pom_version_witness :
    Maven.runStep
        ⟨fun s => s == "pom.xml", fun _ => "1.0-SNAPSHOT"⟩
        [("pom-file", .str "missing-pom.xml")] =
      .error (.valueError "Given pom file does not exist: missing-pom.xml") ∧
    Maven.runStep
        ⟨fun s => s == "pom.xml", fun _ => "1.0-SNAPSHOT"⟩
        [("pom-file", .str "pom.xml")] =
      .ok [("app-version", .str "1.0-SNAPSHOT")] :=
  ⟨(Maven_runStep_pom_version
      ⟨fun s => s == "pom.xml", fun _ => "1.0-SNAPSHOT"⟩
      [("pom-file", .str "missing-pom.xml")] "missing-pom.xml" rfl).1 rfl,
   (Maven_runStep_pom_version
      ⟨fun s => s == "pom.xml", fun _ => "1.0-SNAPSHOT"⟩
      [("pom-file", .str "pom.xml")] "pom.xml" rfl).2 rfl⟩

/-!
The OpenSCAP implementer for the container-image-static-compliance-scan
step, translated from
`src/tssc/step_implementers/container_image_static_compliance_scan/openscap.py`.
-/

/-- Translation of `OpenSCAP.step_name`. -/
def OpenSCAP.stepName : String :=
  DefaultSteps.CONTAINER_IMAGE_STATIC_COMPLIANCE_SCAN

/-- Translation of `OpenSCAP._run_step`: returns the empty result mapping for every
runtime step config. -/
def OpenSCAP.runStep (_cfg : SMap) : SMap := []

/-- Claim C10: the OpenSCAP implementer of the
container-image-static-compliance-scan step is a no-op: its run hook
returns the empty result mapping for every runtime step config, and
merging that result into the results document records no result key — the
step's entry reads the same at every key as before the merge. -/
theorem OpenSCAP_runStep_noop (cfg : SMap) (doc : Doc) (k : String) :
    OpenSCAP.runStep cfg = [] ∧
      getVal ((getDoc (mergeStepResult doc OpenSCAP.stepName
          (OpenSCAP.runStep cfg)) OpenSCAP.stepName).getD []) k =
        getVal ((getDoc doc OpenSCAP.stepName).getD []) k := by
  constructor
  · rfl
  · rw [getDoc_mergeStepResult_self]
    simp only [Option.getD_some]
    rw [show OpenSCAP.runStep cfg = [] from rfl]
    exact getVal_updateMap_nil _ k

theorem pyStartsWith_https_not_http (s : String)
    (h : pyStartsWith s "https://" = true) :
    pyStartsWith s "http://" = false := by
  unfold pyStartsWith at h
  unfold pyStartsWith
  have hdata : "https://".data = ['h', 't', 't', 'p', 's', ':', '/', '/'] :=
    rfl
  rw [hdata] at h
  rw [show "http://".data = ['h', 't', 't', 'p', ':', '/', '/'] from rfl]
  have hpre : ['h', 't', 't', 'p', 's', ':', '/', '/'] <+: s.data :=
    List.isPrefixOf_iff_prefix.mp h
  obtain ⟨rest, hrest⟩ := hpre
  rw [← hrest]
  simp [List.isPrefixOf]

/-- Claim C8: when the resolved git url starts with `https://` and non-empty
`git-username` and `git-password` are supplied, the authenticated git push
(tags and branch) goes to the url obtained by removing the 8-character
`https://` prefix and prepending `http://username:password@` — the
credential-bearing push uses the `http://` scheme, never `https://`. -/
theorem ArgoCD_processGitPush_https_becomes_http
    (cfg : SMap) (results : Doc) (env : ArgoEnv) (u p : String)
    (hu : getVal cfg "git-username" = some (.str u)) (hune : u ≠ "")
    (hp : getVal cfg "git-password" = some (.str p)) (hpne : p ≠ "")
    (hhttps : pyStartsWith (ArgoCD.gitUrl cfg env) "https://" = true)
    (t : List Act) :
    ArgoCD.processGitPush cfg results env t =
      (t ++ [.gitTagCmd (ArgoCD.getTag results).toStr,
             .gitPushTags (some ("http://" ++ u ++ ":" ++ p ++ "@" ++
               pyDrop (ArgoCD.gitUrl cfg env) 8)),
             .gitPush (some ("http://" ++ u ++ ":" ++ p ++ "@" ++
               pyDrop (ArgoCD.gitUrl cfg env) 8))], .ok ()) := by
  have hhttp : pyStartsWith (ArgoCD.gitUrl cfg env) "http://" = false :=
    pyStartsWith_https_not_http _ hhttps
  have hgu : getTruthy cfg "git-username" = some (.str u) := by
    simp [getTruthy, hu, Value.truthy, hune]
  have hgp : getTruthy cfg "git-password" = some (.str p) := by
    simp [getTruthy, hp, Value.truthy, hpne]
  unfold ArgoCD.processGitPush
  simp only [ArgoCD.GIT_AUTHENTICATION_CONFIG, List.any_cons, List.any_nil,
    hu, hp, Option.isSome_some, Bool.true_or, Bool.or_false, if_true,
    hgu, hgp, hhttp, hhttps, run_bind, run_pure, run_emit, run_liftE,
    Value.toStr, Bool.false_eq_true, if_false, List.append_assoc,
    List.cons_append, List.nil_append]

/-- Witness for C8: a config with url `https://h/r.git` and credentials
`gu`/`gp` pushes to `http://gu:gp@h/r.git`. -/
theorem ArgoCD_processGitPush_https_becomes_http_witness :
    ArgoCD.processGitPush
        [("git-username", .str "gu"), ("git-password", .str "gp"),
         ("url", .str "https://h/r.git")] [] ⟨true, "unused"⟩ [] =
      ([.gitTagCmd "latest",
        .gitPushTags (some "http://gu:gp@h/r.git"),
        .gitPush (some "http://gu:gp@h/r.git")], .ok ()) :=
  ArgoCD_processGitPush_https_becomes_http
    [("git-username", .str "gu"), ("git-password", .str "gp"),
     ("url", .str "https://h/r.git")] [] ⟨true, "unused"⟩ "gu" "gp"
    rfl (by decide) rfl (by decide) rfl []

/-- A deploy step config (shaped like the test fixtures in
`src/tests/step_implementers/deploy/test_argocd.py`) carrying all required
keys, an `image-url`, and both git credential keys with the given
values. -/
def credsConfig (u p : String) : SMap :=
  [("argocd-username", .str "admin"), ("argocd-password", .str "pw"),
   ("argocd-api", .str "http://argocd.example.com"),
   ("deployment-namespace", .str "dev"),
   ("helm-config-repo", .str "http://gitrepo.com/helm-confg-repo.git"),
   ("organization", .str "org"), ("application-name", .str "app"),
   ("service-name", .str "svc"),
   ("values-yaml-directory", .str "./cicd/Deployment"),
   ("values-yaml-template", .str "values.yaml.j2"),
   ("helm-config-repo-branch", .str "master"),
   ("argocd-sync-timeout-seconds", .int 60),
   ("git-email", .str "napsspo+tssc@redhat.com"),
   ("git-friendly-name", .str "TSSC"),
   ("image-url", .str "quay.io/tssc/myimage"),
   ("git-username", .str u), ("git-password", .str p)]

/-- Claim C9: with both `git-username` and `git-password` keys present but
either value empty, the validation hook's membership-only credential check
passes, and the run fails in the git-push phase with the `ValueError`
"Both username and password must have non-empty value in the runtime step
configuration" — only after the argocd login, the app lookup, and the
local git clone, checkout, values rendering, commit and tag have all been
performed. -/
theorem ArgoCD_empty_credential_fails_in_git_push
    (u p : String) (hempty : u = "" ∨ p = "")
    (results : Doc) (ru : String) :
    ArgoCD.validateRuntimeStepConfig (credsConfig u p) = .ok () ∧
    ArgoCD.runStep (credsConfig u p) results ⟨true, ru⟩ =
      ([.argocdLogin "http://argocd.example.com" "admin" "pw",
        .argocdAppGet "org-app-svc",
        .gitClone "http://gitrepo.com/helm-confg-repo.git",
        .gitCheckout "master",
        .renderValuesYaml "./cicd/Deployment" "values.yaml.j2",
        .copyValuesYaml,
        .gitConfig "user.email" "napsspo+tssc@redhat.com",
        .gitConfig "user.name" "TSSC",
        .gitCommit ("Configuration Change from TSSC Pipeline. Repository: "
          ++ ru ++ " Tag: " ++ (ArgoCD.getTag results).toStr),
        .gitTagCmd (ArgoCD.getTag results).toStr],
       .error (.valueError
         "Both username and password must have non-empty value in the runtime step configuration")) := by
  constructor
  · rfl
  · rcases hempty with h | h
    · subst h
      rfl
    · subst h
      obtain ⟨data⟩ := u
      cases data with
      | nil => rfl
      | cons c cs => rfl

/-- Witness for C9: an empty `git-username` with non-empty `git-password`
passes validation and fails in the push phase with the full prior trace. -/
theorem ArgoCD_empty_credential_fails_in_git_push_witness :
    ArgoCD.validateRuntimeStepConfig (credsConfig "" "unit_test_password") =
      .ok () ∧
    ArgoCD.runStep (credsConfig "" "unit_test_password") []
        ⟨true, "https://h/r.git"⟩ =
      ([.argocdLogin "http://argocd.example.com" "admin" "pw",
        .argocdAppGet "org-app-svc",
        .gitClone "http://gitrepo.com/helm-confg-repo.git",
        .gitCheckout "master",
        .renderValuesYaml "./cicd/Deployment" "values.yaml.j2",
        .copyValuesYaml,
        .gitConfig "user.email" "napsspo+tssc@redhat.com",
        .gitConfig "user.name" "TSSC",
        .gitCommit ("Configuration Change from TSSC Pipeline. Repository: "
          ++ "https://h/r.git" ++ " Tag: " ++ (ArgoCD.getTag []).toStr),
        .gitTagCmd (ArgoCD.getTag []).toStr],
       .error (.valueError
         "Both username and password must have non-empty value in the runtime step configuration")) :=
  ArgoCD_empty_credential_fails_in_git_push "" "unit_test_password"
    (Or.inl rfl) [] "https://h/r.git"
